import Mathlib

/-!
Verification of the reverse-mode automatic-differentiation core in
`Alpha2.0/autograd/tensor.py` against its natural-language specification.

The development shallowly embeds the tensor/graph data model and the
backward-propagation algorithm of `tensor.py`.  The dense-array substrate
(numpy) is an external collaborator of the program; it is modelled here by
`NDArr`: a row-major flat list of rationals together with an explicit shape,
with elementwise broadcasting, axis summation, 2-D matrix product, transpose
and basic slicing, mirroring the numpy operations the source actually calls.
Array entries are modelled by exact integers: every operation the source
performs on entries is ring arithmetic (addition, negation, multiplication),
so the claims are ring-level data-flow and shape facts, and the integer
model keeps every concrete run computable by the kernel; no claim depends
on float rounding.
-/

namespace Autograd

/-- Dense n-dimensional array: shape plus row-major flat data.
Models the numpy `ndarray` values flowing through `tensor.py`. -/
structure NDArr where
  shape : List Nat
  data : List ℤ
deriving DecidableEq, Repr

/-- Number of elements described by a shape (product of the dimensions). -/
def prodl (sh : List Nat) : Nat := sh.foldr (fun d acc => d * acc) 1

/-- Well-formedness: the flat data has exactly as many entries as the shape
describes.  Every array numpy hands to the program satisfies this. -/
def NDArr.wf (a : NDArr) : Prop := a.data.length = prodl a.shape

/-- Model of `np.zeros` for a given shape. -/
def zerosArr (sh : List Nat) : NDArr := ⟨sh, List.replicate (prodl sh) 0⟩

/-- Model of `np.zeros_like(a)`: a zero array with the shape of `a`. -/
def zerosLike (a : NDArr) : NDArr := zerosArr a.shape

/-- Model of `np.ones_like(a)`. -/
def onesLike (a : NDArr) : NDArr := ⟨a.shape, List.replicate (prodl a.shape) 1⟩

/-- Model of elementwise negation `-a`. -/
def negArr (a : NDArr) : NDArr := ⟨a.shape, a.data.map (fun x => -x)⟩

/-- Model of `a.sum()` with no axis argument: the scalar (0-d) total. -/
def sumAll (a : NDArr) : NDArr := ⟨[], [a.data.foldr (fun x acc => x + acc) 0]⟩

/-- Numpy broadcast rule on reversed (innermost-first) shapes. -/
def bcastRev : List Nat → List Nat → Option (List Nat)
  | [], ys => some ys
  | x :: xs, [] => some (x :: xs)
  | x :: xs, y :: ys =>
    match bcastRev xs ys with
    | none => none
    | some rest =>
      if x = y then some (x :: rest)
      else if x = 1 then some (y :: rest)
      else if y = 1 then some (x :: rest)
      else none

/-- Numpy broadcast rule: the common shape of two operand shapes, aligned
from the trailing (innermost) dimension; `none` when incompatible. -/
def broadcastShape (s t : List Nat) : Option (List Nat) :=
  (bcastRev s.reverse t.reverse).map List.reverse

/-- All multi-indices of a shape, in row-major order. -/
def allIdx : List Nat → List (List Nat)
  | [] => [[]]
  | d :: rest => (List.range d).flatMap (fun i => (allIdx rest).map (fun idx => i :: idx))

/-- Row-major flat offset of a multi-index within a shape. -/
def flatten : List Nat → List Nat → Nat
  | _, [] => 0
  | [], _ => 0
  | _ :: rest, i :: is => i * prodl rest + flatten rest is

/-- Element of an array at a multi-index. -/
def getIdx (a : NDArr) (idx : List Nat) : ℤ := a.data.getD (flatten a.shape idx) 0

/-- Map a multi-index of the broadcast result shape back to a source index of
shape `srcSh` (drop the extra leading axes; clamp size-1 axes to 0). -/
def bIdx (srcSh : List Nat) (idx : List Nat) : List Nat :=
  List.zipWith (fun d i => if d = 1 then 0 else i) srcSh (idx.drop (idx.length - srcSh.length))

/-- Model of a numpy elementwise binary operation with broadcasting
(`a + b`, `a * b`, ...).  When the shapes coincide the result is the
pointwise combination of the row-major data; otherwise both operands are
broadcast to the common shape; incompatible shapes fail (numpy raises). -/
def elemBin (f : ℤ → ℤ → ℤ) (a b : NDArr) : Option NDArr :=
  if a.shape = b.shape then some ⟨a.shape, List.zipWith f a.data b.data⟩
  else
    match broadcastShape a.shape b.shape with
    | none => none
    | some sh =>
      some ⟨sh, (allIdx sh).map (fun idx => f (getIdx a (bIdx a.shape idx)) (getIdx b (bIdx b.shape idx)))⟩

/-- Model of `a.sum(axis=i, keepdims=keep)`: sums along axis `i`; with
`keepdims` the axis is kept with size 1, otherwise it is removed.  Fails when
the axis is out of range (numpy raises). -/
def sumAxis (a : NDArr) (i : Nat) (keep : Bool) : Option NDArr :=
  if i < a.shape.length then
    let d := a.shape.getD i 0
    let inner := prodl (a.shape.drop (i + 1))
    let newShape := if keep then a.shape.set i 1 else a.shape.eraseIdx i
    some ⟨newShape, (List.range (prodl (a.shape.take i) * inner)).map (fun p =>
      (List.range d).foldr
        (fun j acc => a.data.getD ((p / inner) * (d * inner) + j * inner + p % inner) 0 + acc) 0)⟩
  else none

/-- Model of `x.T` for a 2-D array (the only use in `tensor.py` is inside
`_matmul`, which per its docstring handles 2-D operands). -/
def transpose (a : NDArr) : Option NDArr :=
  match a.shape with
  | [n, m] =>
    some ⟨[m, n], (List.range (m * n)).map (fun p => a.data.getD ((p % n) * m + p / n) 0)⟩
  | _ => none

/-- Model of the 2-D matrix product `a @ b`: shapes `[n,k]` and `[k,m]` give
`[n,m]`; anything else fails. -/
def matMul (a b : NDArr) : Option NDArr :=
  match a.shape, b.shape with
  | [n, k], [k2, m] =>
    if k = k2 then
      some ⟨[n, m], (List.range (n * m)).map (fun p =>
        (List.range k).foldr
          (fun l acc => a.data.getD ((p / m) * k + l) 0 * b.data.getD (l * m + p % m) 0 + acc) 0)⟩
    else none
  | _, _ => none

/-- Model of `a[s:t]`: a contiguous slice along axis 0 with numpy clamping.
This is the index-expression fragment used to settle the slice claims.
Indexing a 0-d array fails (numpy raises). -/
def sliceData (a : NDArr) (s t : Nat) : Option NDArr :=
  match a.shape with
  | [] => none
  | d :: rest =>
    let rs := prodl rest
    let lo := min s d
    let hi := min t d
    some ⟨(hi - lo) :: rest, (a.data.drop (lo * rs)).take ((hi - lo) * rs)⟩

/-- Model of the numpy slice assignment `a[s:t] = g` (returning the updated
array): requires `g` to have exactly the shape of the selected region. -/
def setSlice (a : NDArr) (s t : Nat) (g : NDArr) : Option NDArr :=
  match a.shape with
  | [] => none
  | d :: rest =>
    let rs := prodl rest
    let lo := min s d
    let hi := min t d
    if g.shape = (hi - lo) :: rest then
      some ⟨a.shape, (a.data.take (lo * rs)) ++ g.data ++ (a.data.drop (hi * rs))⟩
    else none

/-! ## Embedding of `tensor.py` -/

/-- Embeds `Tensor.zero_grad` (tensor.py:93-94):
`self.grad = Tensor(np.zeros_like(self.data))` — a zero gradient matching the
tensor's current data. -/
def zero_grad (dataArr : NDArr) : NDArr := zerosLike dataArr

/-- Embeds the gradient allocation in `Tensor.__init__` (tensor.py:33-36):
`self.grad = None`, then `if self.requires_grad: self.zero_grad()`. -/
def initGrad (requires_grad : Bool) (dataArr : NDArr) : Option NDArr :=
  if requires_grad then some (zero_grad dataArr) else none

/-- Embeds the first loop of `grad_fn1`/`grad_fn2` in `_add`/`_multiply`
(tensor.py:143-145): `for _ in range(ndim_added): grad = grad.sum(axis=0)`. -/
def sumLeading : Nat → NDArr → Option NDArr
  | 0, g => some g
  | n + 1, g =>
    match sumAxis g 0 false with
    | none => none
    | some g2 => sumLeading n g2

/-- Embeds the second loop of `grad_fn1`/`grad_fn2` (tensor.py:148-150):
`for i, dim in enumerate(t.shape): if dim == 1: grad = grad.sum(axis=i, keepdims=True)`.
The first argument is the remaining suffix of the operand shape being
enumerated; the second is the current loop index `i`. -/
def sumOnesAux : List Nat → Nat → NDArr → Option NDArr
  | [], _, g => some g
  | d :: rest, i, g =>
    if d = 1 then
      match sumAxis g i true with
      | none => none
      | some g2 => sumOnesAux rest (i + 1) g2
    else sumOnesAux rest (i + 1) g

/-- Embeds the broadcast-reduction body shared (verbatim, duplicated) by the
local gradient functions of `_add` (tensor.py:141-152) and `_multiply`
(tensor.py:180-190): sum away the `grad.ndim - t.data.ndim` leading axes,
then sum with `keepdims` along every axis where the operand dimension is 1.
`tsh` is the operand's shape (`t.shape`); under the source's invariant
`t.shape == t.data.shape`, `t.data.ndim = tsh.length`. -/
def reduceGrad (tsh : List Nat) (g : NDArr) : Option NDArr :=
  match sumLeading (g.shape.length - tsh.length) g with
  | none => none
  | some g2 => sumOnesAux tsh 0 g2

/-- Compatibility of an operand shape with an already rank-aligned suffix of
a broadcast result shape: each operand dimension is 1 or equals the result
dimension. -/
def compatAligned : List Nat → List Nat → Bool
  | [], [] => true
  | t :: ts, r :: rs => (t = 1 || t = r) && compatAligned ts rs
  | _, _ => false

/-- The shape `gsh` is a broadcast expansion of the target shape `tsh`:
`gsh` has at least the rank of `tsh` and, aligned from the trailing axis,
each target dimension is 1 or equal to the corresponding `gsh` dimension. -/
def broadcastsTo (tsh gsh : List Nat) : Bool :=
  decide (tsh.length ≤ gsh.length) && compatAligned tsh (gsh.drop (gsh.length - tsh.length))

/-- Embeds the local gradient function of `_slice` exactly as written
(tensor.py:258-261), for a range index along axis 0:
`bigger_grad = np.zeros_like(data); bigger_grad[idxs] = grad` where `data`
is the FORWARD OUTPUT `t.data[idxs]` (tensor.py:254), i.e. the zero array is
allocated with the shape of the slice, not of `t.data`. -/
def sliceGradFnCode (t : NDArr) (s e : Nat) (g : NDArr) : Option NDArr :=
  match sliceData t s e with
  | none => none
  | some dataArr => setSlice (zerosLike dataArr) s e g

/-- Modelled from the spec: the local gradient function §4.3 prescribes for
`slice` — allocate a zero array shaped like `a`'s FULL data and write the
upstream gradient into the selected positions.  (The code under `src/`
allocates `np.zeros_like(data)` with `data` the sliced output instead; this
definition exists to exhibit the divergence.) -/
def sliceGradFnSpec (t : NDArr) (s e : Nat) (g : NDArr) : Option NDArr :=
  setSlice (zerosLike t) s e g

/-- The value stored in a tensor's `depends_on` field: either a genuine
Python list of `Dependency` edges (with its length), or — as `_slice`
produces (tensor.py:263) — a single bare `Dependency` NamedTuple. -/
inductive DepsVal where
  | edges (n : Nat)
  | bare
deriving DecidableEq, Repr

/-- Whether a `depends_on` value is a list (as `Tensor.backward`'s iteration
over `Dependency` edges requires). -/
def DepsVal.isList : DepsVal → Bool
  | .edges _ => true
  | .bare => false

/-- The `depends_on` value built by `_add` (tensor.py:138-170): starts as an
empty list, appends one edge per operand that requires grad. -/
def addDepsOn (rg1 rg2 : Bool) : DepsVal :=
  .edges ((if rg1 then 1 else 0) + (if rg2 then 1 else 0))

/-- The `depends_on` value built by `_multiply` (tensor.py:177-207). -/
def mulDepsOn (rg1 rg2 : Bool) : DepsVal :=
  .edges ((if rg1 then 1 else 0) + (if rg2 then 1 else 0))

/-- The `depends_on` value built by `_matmul` (tensor.py:236-247). -/
def matmulDepsOn (rg1 rg2 : Bool) : DepsVal :=
  .edges ((if rg1 then 1 else 0) + (if rg2 then 1 else 0))

/-- The `depends_on` value built by `_neg` (tensor.py:214-219). -/
def negDepsOn (rg : Bool) : DepsVal := .edges (if rg then 1 else 0)

/-- The `depends_on` value built by `_tensor_sum` (tensor.py:121-130). -/
def sumDepsOn (rg : Bool) : DepsVal := .edges (if rg then 1 else 0)

/-- The `depends_on` value of the tensor built by `_sub` (tensor.py:222-223):
`t1 + -t2` is an `_add` whose second operand `_neg t2` requires grad exactly
when `t2` does. -/
def subDepsOn (rg1 rg2 : Bool) : DepsVal := addDepsOn rg1 rg2

/-- The `depends_on` value built by `_slice` (tensor.py:257-265): when the
operand requires grad it is `Dependency(t, grad_fn)` — a bare NamedTuple,
NOT the list `[Dependency(t, grad_fn)]`; otherwise the empty list. -/
def sliceDepsOn (rg : Bool) : DepsVal := if rg then .bare else .edges 0

/-! ### Store-based model of `_multiply`'s gradient closures

The local gradient functions of `_multiply` are Python closures over the
operand tensor OBJECTS `t1`, `t2`; `t2.data` (resp. `t1.data`) is an
attribute read performed when the closure is invoked during `backward`, not
a value copied at construction time.  The mutable `data` attributes are
modelled by a store mapping tensor identities to their current arrays. -/

/-- A store of tensor data buffers, indexed by tensor identity. -/
def Store : Type := Nat → NDArr

/-- Replacing the data buffer of tensor `i` (the `data` setter,
tensor.py:42-47). -/
def updateStore (σ : Store) (i : Nat) (v : NDArr) : Store :=
  fun j => if j = i then v else σ j

/-- Embeds `grad_fn1` of `_multiply` (tensor.py:180-190) for operand `t1`:
`grad = grad * t2.data` followed by the broadcast reduction to `t1`'s shape.
`t1shape` is captured at construction (`t1.shape`); the other operand's data
is read from the store `σ` at invocation time, as the closure does. -/
def mulGradFn1 (t1shape : List Nat) (t2id : Nat) (σ : Store) (g : NDArr) : Option NDArr :=
  match elemBin (fun x y => x * y) g (σ t2id) with
  | none => none
  | some g2 => reduceGrad t1shape g2

/-- Embeds the second `grad_fn1` of `_multiply` (tensor.py:195-205) for
operand `t2`: `grad = grad * t1.data`, then reduction to `t2`'s shape. -/
def mulGradFn2 (t2shape : List Nat) (t1id : Nat) (σ : Store) (g : NDArr) : Option NDArr :=
  match elemBin (fun x y => x * y) g (σ t1id) with
  | none => none
  | some g2 => reduceGrad t2shape g2

/-! ### The computation graph and the backward engine

A graph built by the operation constructors from leaf tensors whose data is
never replaced after construction.  Every node carries the identity (`id`)
of the Python `Tensor` object it denotes; a leaf appearing under the same
`id` in several places models one object referenced by several dependency
edges.  Leaf tensors carry their data and `requires_grad` flag;
`requires_grad` of a derived tensor is the OR of its operands' flags, as
each constructor computes it. -/

/-- A tensor of the dynamic computation graph, as built by the operation
constructors of `tensor.py` (`_add`, `_neg`, `_multiply`, `_matmul`,
`_tensor_sum`, `_slice`); `_sub` is the derived form `subE` below. -/
inductive Expr where
  | leaf (id : Nat) (dataArr : NDArr) (rg : Bool)
  | add (id : Nat) (a b : Expr)
  | neg (id : Nat) (a : Expr)
  | mul (id : Nat) (a b : Expr)
  | matmul (id : Nat) (a b : Expr)
  | sum (id : Nat) (a : Expr)
  | slice (id : Nat) (a : Expr) (s t : Nat)

/-- Embeds `_sub` (tensor.py:222-223): `t1 + -t2`. -/
def subE (id1 id2 : Nat) (a b : Expr) : Expr := .add id1 a (.neg id2 b)

/-- The `requires_grad` flag of each tensor: set at construction for leaves,
the OR of the operand flags for derived tensors (tensor.py:137, 176, 234,
119, 213, 255). -/
def rgExpr : Expr → Bool
  | .leaf _ _ rg => rg
  | .add _ a b => rgExpr a || rgExpr b
  | .neg _ a => rgExpr a
  | .mul _ a b => rgExpr a || rgExpr b
  | .matmul _ a b => rgExpr a || rgExpr b
  | .sum _ a => rgExpr a
  | .slice _ a _ _ => rgExpr a

/-- The forward data of each tensor, as computed by the constructors
(tensor.py:135, 212, 175, 233, 118, 254). -/
def fwd : Expr → Option NDArr
  | .leaf _ d _ => some d
  | .add _ a b =>
    match fwd a, fwd b with
    | some da, some db => elemBin (fun x y => x + y) da db
    | _, _ => none
  | .neg _ a => (fwd a).map negArr
  | .mul _ a b =>
    match fwd a, fwd b with
    | some da, some db => elemBin (fun x y => x * y) da db
    | _, _ => none
  | .matmul _ a b =>
    match fwd a, fwd b with
    | some da, some db => matMul da db
    | _, _ => none
  | .sum _ a => (fwd a).map sumAll
  | .slice _ a s t =>
    match fwd a with
    | some da => sliceData da s t
    | none => none

/-- The gradient accumulators: the current `grad` buffer of each tensor
identity (`none` models `grad is None`). -/
def GradMap : Type := Nat → Option NDArr

/-- Failure modes of a `backward` run, named after the spec's taxonomy §7:
`notDifferentiable` is the assert at tensor.py:97; `missingGradient` the
RuntimeError at tensor.py:103; `gradAbsent` the crash of
`self.grad.data = self.grad.data + grad.data` (tensor.py:105) when `grad`
is `None`; `attrError` the crash of iterating the bare `Dependency`
NamedTuple `_slice` stores (tensor.py:107-108, 263); `substrate` any
error delegated from the array library (shape mismatch, bad axis). -/
inductive BErr where
  | notDifferentiable
  | missingGradient
  | gradAbsent
  | attrError
  | substrate
deriving DecidableEq, Repr

/-- Embeds the accumulation step of `Tensor.backward` (tensor.py:105):
`self.grad.data = self.grad.data + grad.data` — fails when the accumulator
is absent, otherwise stores the (broadcasting) elementwise sum. -/
def accumulate (m : GradMap) (i : Nat) (g : NDArr) : Except BErr GradMap :=
  match m i with
  | none => .error .gradAbsent
  | some g0 =>
    match elemBin (fun x y => x + y) g0 g with
    | none => .error .substrate
    | some g1 => .ok (fun j => if j = i then some g1 else m j)

/-- Error propagation of the Python runtime: an exception raised by a step
aborts the call immediately; otherwise the next step runs on the updated
gradient state. -/
def andThen (x : Except BErr GradMap) (f : GradMap → Except BErr GradMap) :
    Except BErr GradMap :=
  match x with
  | .error err => .error err
  | .ok mm => f mm

/-- Embeds the recursive body of `Tensor.backward` (tensor.py:96-109):
the `requires_grad` assert, the accumulation into the tensor's own `grad`,
then, for every dependency edge in order, the edge's local gradient function
applied to the INCOMING gradient and the recursive call on the edge's source
tensor.  Each constructor's edges and local gradient functions are inlined
from `_add` (tensor.py:140-170), `_neg` (214-217), `_multiply` (179-207),
`_matmul` (238-247), `_tensor_sum` (121-128) and `_slice` (257-263); an
edge exists exactly when the corresponding operand requires grad.  For a
`slice` tensor the stored `depends_on` is a bare `Dependency` NamedTuple,
so the edge loop crashes with an attribute error before any recursion.
The operand attributes the closures read (`t.shape`, `t.data`) are the
constructed forward values, unchanged since construction because no data
buffer is replaced in the graphs modelled here. -/
def backprop : Expr → NDArr → GradMap → Except BErr GradMap
  | .leaf i _ rg, g, m =>
    if rg then accumulate m i g else .error .notDifferentiable
  | .add i a b, g, m =>
    if rgExpr a || rgExpr b then
      andThen (accumulate m i g) (fun m1 =>
        andThen
          (if rgExpr a then
             match fwd a with
             | none => Except.error BErr.substrate
             | some da =>
               match reduceGrad da.shape g with
               | none => Except.error BErr.substrate
               | some c => backprop a c m1
           else Except.ok m1)
          (fun m2 =>
            if rgExpr b then
              match fwd b with
              | none => Except.error BErr.substrate
              | some db =>
                match reduceGrad db.shape g with
                | none => Except.error BErr.substrate
                | some c => backprop b c m2
            else Except.ok m2))
    else .error .notDifferentiable
  | .neg i a, g, m =>
    if rgExpr a then
      andThen (accumulate m i g) (fun m1 => backprop a (negArr g) m1)
    else .error .notDifferentiable
  | .mul i a b, g, m =>
    if rgExpr a || rgExpr b then
      andThen (accumulate m i g) (fun m1 =>
        andThen
          (if rgExpr a then
             match fwd a, fwd b with
             | some da, some db =>
               (match elemBin (fun x y => x * y) g db with
                | none => Except.error BErr.substrate
                | some g2 =>
                  match reduceGrad da.shape g2 with
                  | none => Except.error BErr.substrate
                  | some c => backprop a c m1)
             | _, _ => Except.error BErr.substrate
           else Except.ok m1)
          (fun m2 =>
            if rgExpr b then
              match fwd a, fwd b with
              | some da, some db =>
                (match elemBin (fun x y => x * y) g da with
                 | none => Except.error BErr.substrate
                 | some g2 =>
                   match reduceGrad db.shape g2 with
                   | none => Except.error BErr.substrate
                   | some c => backprop b c m2)
              | _, _ => Except.error BErr.substrate
            else Except.ok m2))
    else .error .notDifferentiable
  | .matmul i a b, g, m =>
    if rgExpr a || rgExpr b then
      andThen (accumulate m i g) (fun m1 =>
        andThen
          (if rgExpr a then
             match fwd b with
             | none => Except.error BErr.substrate
             | some db =>
               (match transpose db with
                | none => Except.error BErr.substrate
                | some dbt =>
                  match matMul g dbt with
                  | none => Except.error BErr.substrate
                  | some c => backprop a c m1)
           else Except.ok m1)
          (fun m2 =>
            if rgExpr b then
              match fwd a with
              | none => Except.error BErr.substrate
              | some da =>
                (match transpose da with
                 | none => Except.error BErr.substrate
                 | some dat =>
                   match matMul dat g with
                   | none => Except.error BErr.substrate
                   | some c => backprop b c m2)
            else Except.ok m2))
    else .error .notDifferentiable
  | .sum i a, g, m =>
    if rgExpr a then
      andThen (accumulate m i g) (fun m1 =>
        match fwd a with
        | none => Except.error BErr.substrate
        | some da =>
          match elemBin (fun x y => x * y) g (onesLike da) with
          | none => Except.error BErr.substrate
          | some c => backprop a c m1)
    else .error .notDifferentiable
  | .slice i a _ _, g, m =>
    if rgExpr a then
      andThen (accumulate m i g) (fun _ => Except.error BErr.attrError)
    else .error .notDifferentiable

/-- Embeds the entry of `Tensor.backward` (tensor.py:96-103): the
`requires_grad` assert; when no seed gradient is given, an implicit scalar
seed of 1 for a 0-d tensor, otherwise the `RuntimeError` — then the
accumulation-and-recursion body. -/
def runBackward (e : Expr) (seed : Option NDArr) (m : GradMap) : Except BErr GradMap :=
  if rgExpr e then
    match seed with
    | some g => backprop e g m
    | none =>
      match fwd e with
      | none => .error .substrate
      | some d =>
        if d.shape = [] then backprop e ⟨[], [1]⟩ m
        else .error .missingGradient
  else .error .notDifferentiable

/-- The gradient accumulator of tensor `i` after a backward run (`none` when
the run failed). -/
def gradAt (r : Except BErr GradMap) (i : Nat) : Option NDArr :=
  match r with
  | .ok m => m i
  | .error _ => none

/-- The error of a failed backward run, when it failed. -/
def errOf : Except BErr GradMap → Option BErr
  | .error err => some err
  | .ok _ => none

/-- The identities of all tensors in the graph that require grad (each such
tensor allocated a zero gradient at construction, tensor.py:35-36). -/
def rgIds : Expr → List Nat
  | .leaf i _ rg => if rg then [i] else []
  | .add i a b => if rgExpr a || rgExpr b then i :: (rgIds a ++ rgIds b) else []
  | .neg i a => if rgExpr a then i :: rgIds a else []
  | .mul i a b => if rgExpr a || rgExpr b then i :: (rgIds a ++ rgIds b) else []
  | .matmul i a b => if rgExpr a || rgExpr b then i :: (rgIds a ++ rgIds b) else []
  | .sum i a => if rgExpr a then i :: rgIds a else []
  | .slice i a _ _ => if rgExpr a then i :: rgIds a else []

/-- Well-formed initial gradient state for a graph: every tensor that
requires grad has a present (non-`None`) gradient accumulator, as
construction guarantees (tensor.py:35-36) when no data buffer is replaced
afterwards. -/
def WFInit (m : GradMap) (e : Expr) : Prop :=
  ∀ i ∈ rgIds e, (m i).isSome = true

/-- Safety-and-preservation property of one backward step relative to the
gradient state `m0` it starts from: the step does not fail the
`requires_grad` assert, does not find an accumulator absent, and — if it
succeeds — keeps every present accumulator present. -/
def SafeFrom (m0 : GradMap) (r : Except BErr GradMap) : Prop :=
  r ≠ Except.error BErr.notDifferentiable ∧ r ≠ Except.error BErr.gradAbsent ∧
  ∀ m2, r = Except.ok m2 → ∀ j, (m0 j).isSome = true → (m2 j).isSome = true

/-! ## Claim theorems -/

/-- C1: the local gradient function `_slice` builds does NOT allocate a zero
array shaped like the full data of the sliced tensor — it allocates
`np.zeros_like(data)` where `data` is the forward slice output
(tensor.py:259).  Evaluated at the failing input `t` of shape `(3,)` with
`idxs = 0:2` and upstream gradient of shape `(2,)`: the code returns an
array of shape `[2]`, not the `[3]`-shaped `[1, 1, 0]` the claim (and the
spec-modelled gradient function) prescribes. -/
theorem c1_slice_grad_fn_slice_shaped :
    sliceGradFnCode ⟨[3], [5, 6, 7]⟩ 0 2 ⟨[2], [1, 1]⟩ = some ⟨[2], [1, 1]⟩ ∧
    sliceGradFnSpec ⟨[3], [5, 6, 7]⟩ 0 2 ⟨[2], [1, 1]⟩ = some ⟨[3], [1, 1, 0]⟩ ∧
    ([2] : List Nat) ≠ [3] := by
  refine ⟨?_, ?_, by decide⟩ <;> decide

/-- C2 counterexample: the gradient contribution `_multiply`'s `grad_fn1`
propagates to `t1` DOES change when `t2`'s data buffer is replaced between
construction and backward: with scalar operands, upstream gradient 1 and
`t2`'s data replaced from 2 to 3, the contribution changes from 2 to 3
(the closure reads `t2.data` at invocation time). -/
theorem c2_mul_grad_reads_data_at_call :
    mulGradFn1 [] 1 (fun _ => ⟨[], [2]⟩) ⟨[], [1]⟩ = some ⟨[], [2]⟩ ∧
    mulGradFn1 [] 1 (updateStore (fun _ => ⟨[], [2]⟩) 1 ⟨[], [3]⟩) ⟨[], [1]⟩ = some ⟨[], [3]⟩ ∧
    mulGradFn1 [] 1 (fun _ => ⟨[], [2]⟩) ⟨[], [1]⟩ ≠
      mulGradFn1 [] 1 (updateStore (fun _ => ⟨[], [2]⟩) 1 ⟨[], [3]⟩) ⟨[], [1]⟩ := by
  refine ⟨?_, ?_, ?_⟩ <;> decide

/-- C2 (amended): `_multiply`'s local gradient function for `t1` computes
`reduce(upstream * t2.data, shape of t1)` with `t2.data` read from the
store at the time the gradient function runs; after replacing `t2`'s data
buffer the contribution is computed from the replacement buffer (and
symmetrically for `t2` with `t1.data`).  At scalar shapes the contribution
is exactly `upstream * (replaced data)`. -/
theorem c2_mul_grad_uses_current_data :
    (∀ (σ : Store) (i : Nat) (b2 : NDArr) (tsh : List Nat) (g : NDArr),
      mulGradFn1 tsh i (updateStore σ i b2) g =
        match elemBin (fun x y => x * y) g b2 with
        | none => none
        | some g2 => reduceGrad tsh g2) ∧
    (∀ (bv gv : ℤ) (σ : Store) (i : Nat),
      mulGradFn1 [] i (updateStore σ i ⟨[], [bv]⟩) ⟨[], [gv]⟩ = some ⟨[], [gv * bv]⟩) ∧
    (∀ (av gv : ℤ) (σ : Store) (i : Nat),
      mulGradFn2 [] i (updateStore σ i ⟨[], [av]⟩) ⟨[], [gv]⟩ = some ⟨[], [gv * av]⟩) := by
  refine ⟨?_, ?_, ?_⟩
  · intro σ i b2 tsh g
    simp [mulGradFn1, updateStore]
  · intro bv gv σ i
    simp [mulGradFn1, updateStore, elemBin, reduceGrad, sumLeading, sumOnesAux]
  · intro av gv σ i
    simp [mulGradFn2, updateStore, elemBin, reduceGrad, sumLeading, sumOnesAux]

/-- C3: every operation constructor except `_slice` stores a Python list of
`Dependency` edges in `depends_on` (empty when no operand requires grad),
but `_slice` on a differentiable operand stores a bare `Dependency`
NamedTuple (tensor.py:263), not a list — the failing input for the claim. -/
theorem c3_slice_depends_on_not_a_list :
    ((addDepsOn false false).isList = true ∧ addDepsOn false false = .edges 0 ∧
      (addDepsOn true false).isList = true ∧ (addDepsOn false true).isList = true ∧
      (addDepsOn true true).isList = true) ∧
    ((mulDepsOn false false).isList = true ∧ mulDepsOn false false = .edges 0 ∧
      (mulDepsOn true true).isList = true) ∧
    ((matmulDepsOn false false).isList = true ∧ matmulDepsOn false false = .edges 0 ∧
      (matmulDepsOn true true).isList = true) ∧
    ((negDepsOn false).isList = true ∧ negDepsOn false = .edges 0 ∧
      (negDepsOn true).isList = true) ∧
    ((sumDepsOn false).isList = true ∧ sumDepsOn false = .edges 0 ∧
      (sumDepsOn true).isList = true) ∧
    ((subDepsOn false false).isList = true ∧ subDepsOn false false = .edges 0 ∧
      (subDepsOn true true).isList = true) ∧
    (sliceDepsOn false = .edges 0 ∧ sliceDepsOn true = .bare ∧
      (sliceDepsOn true).isList = false) := by
  decide

/-- C5: on a differentiable tensor, `backward` with no seed behaves exactly
as `backward` seeded with the scalar unit gradient `Tensor(1.)` when the
tensor's shape is the empty (0-d) shape, and fails with `MissingGradient`
when the shape is non-empty (tensor.py:99-103). -/
theorem c5_backward_seed_default (e : Expr) (m : GradMap) (d : NDArr)
    (hrg : rgExpr e = true) (hf : fwd e = some d) :
    (d.shape = [] → runBackward e none m = runBackward e (some ⟨[], [1]⟩) m) ∧
    (d.shape ≠ [] → runBackward e none m = Except.error BErr.missingGradient) := by
  constructor <;> intro h <;> simp [runBackward, hrg, hf, h]

/-- Witness for C5: a 0-d differentiable leaf with value 7; backward with no
seed coincides with backward seeded by 1 and in fact succeeds, leaving
gradient 1. -/
theorem c5_backward_seed_default_witness :
    rgExpr (Expr.leaf 0 ⟨[], [7]⟩ true) = true ∧
    fwd (Expr.leaf 0 ⟨[], [7]⟩ true) = some ⟨[], [7]⟩ ∧
    runBackward (Expr.leaf 0 ⟨[], [7]⟩ true) none (fun _ => some ⟨[], [0]⟩) =
      runBackward (Expr.leaf 0 ⟨[], [7]⟩ true) (some ⟨[], [1]⟩) (fun _ => some ⟨[], [0]⟩) ∧
    gradAt (runBackward (Expr.leaf 0 ⟨[], [7]⟩ true) none (fun _ => some ⟨[], [0]⟩)) 0 =
      some ⟨[], [1]⟩ :=
  ⟨rfl, rfl,
    (c5_backward_seed_default (Expr.leaf 0 ⟨[], [7]⟩ true) (fun _ => some ⟨[], [0]⟩)
      ⟨[], [7]⟩ rfl rfl).1 rfl,
    by decide⟩

/-- C8: calling `backward` on a tensor whose `requires_grad` is false fails
with `NotDifferentiable` (the assert at tensor.py:97), with or without a
seed.  The error is raised before the accumulation at tensor.py:105 and
before any recursion, so in this pure model the failing call returns only
the error — no gradient accumulator of any tensor is touched. -/
theorem c8_backward_not_differentiable (e : Expr) (seed : Option NDArr) (m : GradMap)
    (h : rgExpr e = false) :
    runBackward e seed m = Except.error BErr.notDifferentiable := by
  simp [runBackward, h]

/-- Witness for C8: a non-differentiable leaf. -/
theorem c8_backward_not_differentiable_witness :
    rgExpr (Expr.leaf 0 ⟨[], [2]⟩ false) = false ∧
    runBackward (Expr.leaf 0 ⟨[], [2]⟩ false) none (fun _ => none) =
      Except.error BErr.notDifferentiable :=
  ⟨rfl, c8_backward_not_differentiable _ none _ rfl⟩

/-- C9: the zero-initializer (`zero_grad`, called eagerly at construction
when `requires_grad` is true) produces an all-zero, well-formed array whose
shape equals the tensor's current data shape exactly; when `requires_grad`
is false no gradient is allocated. -/
theorem c9_zero_grad_zero_and_shaped (a : NDArr) :
    (zero_grad a).shape = a.shape ∧
    (zero_grad a).data.all (fun x => x == 0) = true ∧
    (zero_grad a).wf ∧
    initGrad true a = some (zero_grad a) ∧
    initGrad false a = none := by
  refine ⟨rfl, ?_, ?_, rfl, rfl⟩
  · simp [zero_grad, zerosLike, zerosArr, List.all_eq_true, List.eq_of_mem_replicate]
  · simp [zero_grad, zerosLike, zerosArr, NDArr.wf]

/-- C4: backward accumulates into `grad` and never overwrites: for a 0-d
leaf `x` (identity 0, any value `v`) used by BOTH dependency edges of
`y = x + x` (identity 1), whose accumulators start at the freshly allocated
zeros, `y.backward()` (implicit unit seed) leaves `x.grad = 1 + 1 = 2`, and
`y.backward(s)` leaves `x.grad = s + s` — the sum of the two edges'
contributions, not the value from only one edge. -/
theorem c4_backward_accumulates_both_edges (v s : ℤ) :
    gradAt (runBackward (Expr.add 1 (Expr.leaf 0 ⟨[], [v]⟩ true) (Expr.leaf 0 ⟨[], [v]⟩ true))
      none (fun j => if j = 0 ∨ j = 1 then some ⟨[], [0]⟩ else none)) 0 = some ⟨[], [2]⟩ ∧
    gradAt (runBackward (Expr.add 1 (Expr.leaf 0 ⟨[], [v]⟩ true) (Expr.leaf 0 ⟨[], [v]⟩ true))
      (some ⟨[], [s]⟩) (fun j => if j = 0 ∨ j = 1 then some ⟨[], [0]⟩ else none)) 0 =
      some ⟨[], [s + s]⟩ := by
  constructor <;>
    simp [runBackward, backprop, andThen, rgExpr, fwd, accumulate, elemBin, reduceGrad,
      sumLeading, sumOnesAux, gradAt]

/-! ### Shape lemmas for the broadcast-reduction rule -/

/-- An in-range axis sum succeeds; with `keepdims` the axis becomes size 1,
without it the axis is removed. -/
theorem sumAxis_shape (g : NDArr) (i : Nat) (keep : Bool) (h : i < g.shape.length) :
    ∃ g2, sumAxis g i keep = some g2 ∧
      g2.shape = (if keep then g.shape.set i 1 else g.shape.eraseIdx i) := by
  simp only [sumAxis]
  rw [if_pos h]
  exact ⟨_, rfl, rfl⟩

/-- Summing away axis 0 drops the leading dimension. -/
theorem sumAxis_zero_shape (g : NDArr) (h : 0 < g.shape.length) :
    ∃ g2, sumAxis g 0 false = some g2 ∧ g2.shape = g.shape.tail := by
  obtain ⟨g2, hs, hsh⟩ := sumAxis_shape g 0 false h
  refine ⟨g2, hs, ?_⟩
  rw [hsh]
  cases g.shape with
  | nil => rfl
  | cons d rest => rfl

/-- Iterating `grad.sum(axis=0)` `n` times drops the `n` leading dimensions. -/
theorem sumLeading_shape (n : Nat) (g : NDArr) (h : n ≤ g.shape.length) :
    ∃ g2, sumLeading n g = some g2 ∧ g2.shape = g.shape.drop n := by
  induction n generalizing g with
  | zero => exact ⟨g, rfl, by simp⟩
  | succ k ih =>
    obtain ⟨g1, hs1, hsh1⟩ := sumAxis_zero_shape g (by omega)
    have hlen : k ≤ g1.shape.length := by
      rw [hsh1, List.length_tail]; omega
    obtain ⟨g2, hs2, hsh2⟩ := ih g1 hlen
    refine ⟨g2, ?_, ?_⟩
    · simp [sumLeading, hs1, hs2]
    · rw [hsh2, hsh1, ← List.drop_one, List.drop_drop, Nat.add_comm]

/-- Setting the element right after a prefix. -/
theorem set_after_append (pre : List Nat) (v r0 : Nat) (rs : List Nat) :
    (pre ++ r0 :: rs).set pre.length v = pre ++ v :: rs := by
  induction pre with
  | nil => rfl
  | cons p ps ih => simp [List.set, ih]

/-- Summing with `keepdims` sets the summed axis to size 1. -/
theorem sumAxis_keep_shape (g : NDArr) (i : Nat) (h : i < g.shape.length) :
    ∃ g2, sumAxis g i true = some g2 ∧ g2.shape = g.shape.set i 1 := by
  obtain ⟨g2, hs, hsh⟩ := sumAxis_shape g i true h
  exact ⟨g2, hs, by simpa using hsh⟩

/-- The `keepdims` loop of the reduction rule: enumerating the remaining
operand dimensions `ts` from position `pre.length`, over an array whose
shape is `pre` followed by a compatible rest, yields exactly `pre ++ ts`. -/
theorem sumOnesAux_shape (ts : List Nat) :
    ∀ (pre rest : List Nat) (g : NDArr), g.shape = pre ++ rest →
      compatAligned ts rest = true →
      ∃ r, sumOnesAux ts pre.length g = some r ∧ r.shape = pre ++ ts := by
  induction ts with
  | nil =>
    intro pre rest g hsh hc
    cases rest with
    | nil => exact ⟨g, rfl, by simpa using hsh⟩
    | cons r0 rs => simp [compatAligned] at hc
  | cons d ds ih =>
    intro pre rest g hsh hc
    cases rest with
    | nil => simp [compatAligned] at hc
    | cons r0 rs =>
      rw [compatAligned, Bool.and_eq_true, Bool.or_eq_true] at hc
      obtain ⟨hd, hcs⟩ := hc
      by_cases h1 : d = 1
      · have hlt : pre.length < g.shape.length := by
          rw [hsh]; simp
        obtain ⟨g2, hsa, hsh2⟩ := sumAxis_keep_shape g pre.length hlt
        have hsh2b : g2.shape = (pre ++ [1]) ++ rs := by
          rw [hsh2, hsh, set_after_append]; simp
        obtain ⟨r, hso, hrsh⟩ := ih (pre ++ [1]) rs g2 hsh2b hcs
        refine ⟨r, ?_, ?_⟩
        · simpa [sumOnesAux, h1, hsa] using hso
        · rw [hrsh, h1]; simp
      · have hd0 : d = r0 := by
          rcases hd with h | h
          · exact absurd (by simpa using h) h1
          · simpa using h
        have hshb : g.shape = (pre ++ [d]) ++ rs := by
          rw [hsh, hd0]; simp
        obtain ⟨r, hso, hrsh⟩ := ih (pre ++ [d]) rs g hshb hcs
        refine ⟨r, ?_, ?_⟩
        · simpa [sumOnesAux, h1] using hso
        · rw [hrsh]; simp

/-- C6: the broadcast-reduction rule shared by the local gradient functions
of `_add` and `_multiply` (`reduceGrad`: sum away the leading added axes
from the outermost inward, then sum with `keepdims` along every operand
axis of size 1) succeeds on every upstream gradient whose shape is a
broadcast expansion of the operand's target shape, and returns an array
whose shape equals the target shape exactly. -/
theorem c6_reduce_grad_restores_target_shape (tsh : List Nat) (g : NDArr)
    (h : broadcastsTo tsh g.shape = true) :
    ∃ r, reduceGrad tsh g = some r ∧ r.shape = tsh := by
  rw [broadcastsTo, Bool.and_eq_true, decide_eq_true_iff] at h
  obtain ⟨hle, hcompat⟩ := h
  obtain ⟨g2, hsl, hsh⟩ := sumLeading_shape (g.shape.length - tsh.length) g (Nat.sub_le _ _)
  obtain ⟨r, hso, hrsh⟩ := sumOnesAux_shape tsh []
    (g.shape.drop (g.shape.length - tsh.length)) g2 (by simpa using hsh) hcompat
  refine ⟨r, ?_, by simpa using hrsh⟩
  simpa [reduceGrad, hsl] using hso

/-- Witness for C6: upstream gradient of shape `(2,1,3)` reduced to target
shape `(1,3)` — the broadcast expansion hypothesis holds, the reduction
returns shape `(1,3)`, and its concrete value sums the leading axis. -/
theorem c6_reduce_grad_restores_target_shape_witness :
    broadcastsTo [1, 3] (NDArr.mk [2, 1, 3] [1, 2, 3, 4, 5, 6]).shape = true ∧
    (∃ r, reduceGrad [1, 3] ⟨[2, 1, 3], [1, 2, 3, 4, 5, 6]⟩ = some r ∧ r.shape = [1, 3]) ∧
    reduceGrad [1, 3] ⟨[2, 1, 3], [1, 2, 3, 4, 5, 6]⟩ = some ⟨[1, 3], [5, 7, 9]⟩ :=
  ⟨by decide,
    c6_reduce_grad_restores_target_shape [1, 3] ⟨[2, 1, 3], [1, 2, 3, 4, 5, 6]⟩ (by decide),
    by decide⟩

/-! ### Lemmas for the matmul gradient claim -/

/-- Adding a list elementwise onto zeros returns the list. -/
theorem zipWith_add_replicate_zero (l : List ℤ) (L : Nat) (h : l.length ≤ L) :
    List.zipWith (fun x y => x + y) (List.replicate L 0) l = l := by
  induction l generalizing L with
  | nil => simp
  | cons x xs ih =>
    cases L with
    | zero => simp at h
    | succ L2 =>
      simp only [List.replicate, List.zipWith]
      rw [ih L2 (by simpa using h)]
      simp

/-- Accumulating a gradient into a freshly allocated zero accumulator of the
same shape stores exactly that gradient. -/
theorem accumulate_into_zeros (mq : GradMap) (i : Nat) (sh : List Nat) (g : NDArr)
    (hm : mq i = some (zerosArr sh)) (hsh : g.shape = sh) (hlen : g.data.length = prodl sh) :
    accumulate mq i g = Except.ok (fun j => if j = i then some g else mq j) := by
  obtain ⟨gsh, gdata⟩ := g
  simp only at hsh hlen
  subst hsh
  unfold accumulate
  rw [hm]
  simp only [elemBin, zerosArr, if_pos]
  rw [zipWith_add_replicate_zero _ _ (le_of_eq hlen)]

/-- Transpose of a 2-D array, explicitly. -/
theorem transpose_of_shape (a : NDArr) (n m : Nat) (h : a.shape = [n, m]) :
    transpose a =
      some ⟨[m, n], (List.range (m * n)).map (fun p => a.data.getD ((p % n) * m + p / n) 0)⟩ := by
  unfold transpose
  rw [h]

/-- A shape-compatible 2-D matrix product succeeds with the expected shape
and data length. -/
theorem matMul_of_shapes (a b : NDArr) (n k m : Nat)
    (ha : a.shape = [n, k]) (hb : b.shape = [k, m]) :
    ∃ r, matMul a b = some r ∧ r.shape = [n, m] ∧ r.data.length = n * m := by
  have h2 : matMul a b = some ⟨[n, m], (List.range (n * m)).map (fun p =>
      (List.range k).foldr
        (fun l acc => a.data.getD ((p / m) * k + l) 0 * b.data.getD (l * m + p % m) 0 + acc)
        0)⟩ := by
    unfold matMul
    rw [ha, hb]
    simp
  exact ⟨_, h2, rfl, by simp⟩

/-- Transpose of a 2-D array swaps the two dimensions. -/
theorem transpose_shape (a : NDArr) (n m : Nat) (h : a.shape = [n, m]) :
    ∃ r, transpose a = some r ∧ r.shape = [m, n] :=
  ⟨_, transpose_of_shape a n m h, rfl⟩

/-- C7: backpropagating a seed gradient `G` of shape `(n,m)` through
`C = matmul(A, B)` with `A : (n,k)`, `B : (k,m)` both differentiable leaves
(identities 0 and 1; `C` has identity 2) with freshly allocated zero
accumulators leaves `A.grad = G · Bᵀ` of shape `(n,k)` and
`B.grad = Aᵀ · G` of shape `(k,m)` — exactly the products `_matmul`'s two
local gradient functions compute, with no broadcast reduction applied. -/
theorem c7_matmul_gradients (n k m : Nat) (A B G : NDArr)
    (hA : A.shape = [n, k]) (hB : B.shape = [k, m]) (hG : G.shape = [n, m])
    (hGw : G.data.length = n * m) :
    ∃ tB gA tA gB,
      transpose B = some tB ∧ matMul G tB = some gA ∧ gA.shape = [n, k] ∧
      transpose A = some tA ∧ matMul tA G = some gB ∧ gB.shape = [k, m] ∧
      gradAt (runBackward (Expr.matmul 2 (Expr.leaf 0 A true) (Expr.leaf 1 B true)) (some G)
        (fun j => if j = 0 then some (zerosArr [n, k]) else if j = 1 then some (zerosArr [k, m])
          else if j = 2 then some (zerosArr [n, m]) else none)) 0 = some gA ∧
      gradAt (runBackward (Expr.matmul 2 (Expr.leaf 0 A true) (Expr.leaf 1 B true)) (some G)
        (fun j => if j = 0 then some (zerosArr [n, k]) else if j = 1 then some (zerosArr [k, m])
          else if j = 2 then some (zerosArr [n, m]) else none)) 1 = some gB := by
  obtain ⟨tB, htB, htBs⟩ := transpose_shape B k m hB
  obtain ⟨gA, hgA, hgAs, hgAl⟩ := matMul_of_shapes G tB n m k hG htBs
  obtain ⟨tA, htA, htAs⟩ := transpose_shape A n k hA
  obtain ⟨gB, hgB, hgBs, hgBl⟩ := matMul_of_shapes tA G k n m htAs hG
  have hacc2 := accumulate_into_zeros
    (fun j => if j = 0 then some (zerosArr [n, k]) else if j = 1 then some (zerosArr [k, m])
      else if j = 2 then some (zerosArr [n, m]) else none) 2 [n, m] G
    (by simp) hG (by rw [hGw]; simp [prodl])
  have hacc0 := accumulate_into_zeros
    (fun j => if j = 2 then some G
      else if j = 0 then some (zerosArr [n, k]) else if j = 1 then some (zerosArr [k, m])
      else if j = 2 then some (zerosArr [n, m]) else none) 0 [n, k] gA
    (by simp) hgAs (by rw [hgAl]; simp [prodl])
  have hacc1 := accumulate_into_zeros
    (fun j => if j = 0 then some gA
      else if j = 2 then some G
      else if j = 0 then some (zerosArr [n, k]) else if j = 1 then some (zerosArr [k, m])
      else if j = 2 then some (zerosArr [n, m]) else none) 1 [k, m] gB
    (by simp) hgBs (by rw [hgBl]; simp [prodl])
  refine ⟨tB, gA, tA, gB, htB, hgA, hgAs, htA, hgB, hgBs, ?_, ?_⟩ <;>
    simp [runBackward, backprop, andThen, rgExpr, fwd, gradAt, htB, hgA, htA, hgB, hacc2,
      hacc0, hacc1]

/-- Witness for C7: concrete `A : (2,3)`, `B : (3,2)`, all-ones seed `(2,2)`;
the hypotheses hold and in particular `A.grad = G·Bᵀ` and `B.grad = Aᵀ·G`
evaluate to the expected concrete matrices. -/
theorem c7_matmul_gradients_witness :
    (NDArr.mk [2, 3] [1, 2, 3, 4, 5, 6]).shape = [2, 3] ∧
    (NDArr.mk [3, 2] [7, 8, 9, 10, 11, 12]).shape = [3, 2] ∧
    (NDArr.mk [2, 2] [1, 1, 1, 1]).shape = [2, 2] ∧
    (NDArr.mk [2, 2] [1, 1, 1, 1]).data.length = 2 * 2 ∧
    (∃ tB gA tA gB,
      transpose ⟨[3, 2], [7, 8, 9, 10, 11, 12]⟩ = some tB ∧
      matMul ⟨[2, 2], [1, 1, 1, 1]⟩ tB = some gA ∧ gA.shape = [2, 3] ∧
      transpose ⟨[2, 3], [1, 2, 3, 4, 5, 6]⟩ = some tA ∧
      matMul tA ⟨[2, 2], [1, 1, 1, 1]⟩ = some gB ∧ gB.shape = [3, 2] ∧
      gradAt (runBackward (Expr.matmul 2 (Expr.leaf 0 ⟨[2, 3], [1, 2, 3, 4, 5, 6]⟩ true)
        (Expr.leaf 1 ⟨[3, 2], [7, 8, 9, 10, 11, 12]⟩ true)) (some ⟨[2, 2], [1, 1, 1, 1]⟩)
        (fun j => if j = 0 then some (zerosArr [2, 3]) else if j = 1 then some (zerosArr [3, 2])
          else if j = 2 then some (zerosArr [2, 2]) else none)) 0 = some gA ∧
      gradAt (runBackward (Expr.matmul 2 (Expr.leaf 0 ⟨[2, 3], [1, 2, 3, 4, 5, 6]⟩ true)
        (Expr.leaf 1 ⟨[3, 2], [7, 8, 9, 10, 11, 12]⟩ true)) (some ⟨[2, 2], [1, 1, 1, 1]⟩)
        (fun j => if j = 0 then some (zerosArr [2, 3]) else if j = 1 then some (zerosArr [3, 2])
          else if j = 2 then some (zerosArr [2, 2]) else none)) 1 = some gB) ∧
    gradAt (runBackward (Expr.matmul 2 (Expr.leaf 0 ⟨[2, 3], [1, 2, 3, 4, 5, 6]⟩ true)
        (Expr.leaf 1 ⟨[3, 2], [7, 8, 9, 10, 11, 12]⟩ true)) (some ⟨[2, 2], [1, 1, 1, 1]⟩)
        (fun j => if j = 0 then some (zerosArr [2, 3]) else if j = 1 then some (zerosArr [3, 2])
          else if j = 2 then some (zerosArr [2, 2]) else none)) 0 =
      some ⟨[2, 3], [15, 19, 23, 15, 19, 23]⟩ ∧
    gradAt (runBackward (Expr.matmul 2 (Expr.leaf 0 ⟨[2, 3], [1, 2, 3, 4, 5, 6]⟩ true)
        (Expr.leaf 1 ⟨[3, 2], [7, 8, 9, 10, 11, 12]⟩ true)) (some ⟨[2, 2], [1, 1, 1, 1]⟩)
        (fun j => if j = 0 then some (zerosArr [2, 3]) else if j = 1 then some (zerosArr [3, 2])
          else if j = 2 then some (zerosArr [2, 2]) else none)) 1 =
      some ⟨[3, 2], [5, 5, 7, 7, 9, 9]⟩ :=
  ⟨rfl, rfl, rfl, rfl,
    c7_matmul_gradients 2 3 2 ⟨[2, 3], [1, 2, 3, 4, 5, 6]⟩ ⟨[3, 2], [7, 8, 9, 10, 11, 12]⟩
      ⟨[2, 2], [1, 1, 1, 1]⟩ rfl rfl rfl rfl,
    by decide, by decide⟩

/-! ### Safety of the recursive backward traversal -/

/-- The accumulation step never raises the `requires_grad` assert, and never
finds the accumulator absent when it is present. -/
theorem accumulate_safe (mq : GradMap) (i : Nat) (g : NDArr) (hi : (mq i).isSome = true) :
    accumulate mq i g ≠ Except.error BErr.notDifferentiable ∧
    accumulate mq i g ≠ Except.error BErr.gradAbsent := by
  cases hmi : mq i with
  | none => rw [hmi] at hi; simp at hi
  | some g0 =>
    cases helem : elemBin (fun x y => x + y) g0 g with
    | none => simp [accumulate, hmi, helem]
    | some g1 => simp [accumulate, hmi, helem]

/-- A successful accumulation keeps every present accumulator present. -/
theorem accumulate_pres (mq : GradMap) (i : Nat) (g : NDArr) (m2 : GradMap)
    (h : accumulate mq i g = Except.ok m2) :
    ∀ j, (mq j).isSome = true → (m2 j).isSome = true := by
  cases hmi : mq i with
  | none => simp [accumulate, hmi] at h
  | some g0 =>
    cases helem : elemBin (fun x y => x + y) g0 g with
    | none => simp [accumulate, hmi, helem] at h
    | some g1 =>
      simp only [accumulate, hmi, helem, Except.ok.injEq] at h
      subst h
      intro j hj
      by_cases hji : j = i <;> simp [hji, hj]

/-- A pure pass-through step is safe. -/
theorem safeFrom_ok (m0 : GradMap) : SafeFrom m0 (Except.ok m0) := by
  refine ⟨by simp, by simp, fun m2 hm2 j hj => ?_⟩
  simp only [Except.ok.injEq] at hm2
  subst hm2
  exact hj

/-- A substrate (array-library) failure is outside the two guarded steps. -/
theorem safeFrom_substrate (m0 : GradMap) :
    SafeFrom m0 (Except.error BErr.substrate) := ⟨by simp, by simp, by simp⟩

/-- The bare-`Dependency` iteration crash of `_slice` is outside the two
guarded steps. -/
theorem safeFrom_attrError (m0 : GradMap) :
    SafeFrom m0 (Except.error BErr.attrError) := ⟨by simp, by simp, by simp⟩

/-- Sequencing preserves safety: the second step additionally receives the
fact that the first step only ever turns absent accumulators present. -/
theorem safeFrom_andThen (m0 : GradMap) (x : Except BErr GradMap)
    (f : GradMap → Except BErr GradMap)
    (hx : SafeFrom m0 x)
    (hf : ∀ mm, x = Except.ok mm →
      (∀ j, (m0 j).isSome = true → (mm j).isSome = true) → SafeFrom mm (f mm)) :
    SafeFrom m0 (andThen x f) := by
  cases x with
  | error err =>
    simp only [andThen]
    exact ⟨hx.1, hx.2.1, by simp⟩
  | ok mm =>
    simp only [andThen]
    obtain ⟨h1, h2, h3⟩ := hf mm rfl (hx.2.2 mm rfl)
    exact ⟨h1, h2, fun m2 hm2 j hj => h3 m2 hm2 j (hx.2.2 mm rfl j hj)⟩

/-- The accumulation step is safe whenever the target accumulator is
present. -/
theorem accumulate_safeFrom (mq : GradMap) (i : Nat) (g : NDArr)
    (hi : (mq i).isSome = true) : SafeFrom mq (accumulate mq i g) := by
  obtain ⟨h1, h2⟩ := accumulate_safe mq i g hi
  exact ⟨h1, h2, fun m2 hm2 => accumulate_pres mq i g m2 hm2⟩

/-- Safety and accumulator preservation of the recursive backward body: on a
graph whose tensors that require grad all hold a present accumulator, the
traversal never fails the `requires_grad` assert and never finds a gradient
accumulator absent, and a successful run keeps present accumulators
present. -/
theorem backprop_safeFrom (e : Expr) : ∀ (g : NDArr) (mq : GradMap),
    rgExpr e = true → WFInit mq e → SafeFrom mq (backprop e g mq) := by
  induction e with
  | leaf i d rg =>
    intro g mq hrg hwf
    simp only [rgExpr] at hrg
    have hi : (mq i).isSome = true := hwf i (by simp [rgIds, hrg])
    simp only [backprop, hrg, if_true]
    exact accumulate_safeFrom mq i g hi
  | add i a b iha ihb =>
    intro g mq hrg hwf
    simp only [rgExpr] at hrg
    have hi : (mq i).isSome = true := hwf i (by simp [rgIds, hrg])
    simp only [backprop, hrg, if_true]
    refine safeFrom_andThen mq _ _ (accumulate_safeFrom mq i g hi) ?_
    intro m1 hm1 hpres1
    have hwfa : ∀ x ∈ rgIds a, (m1 x).isSome = true := fun x hx =>
      hpres1 x (hwf x (by
        simp [rgIds, hrg, List.mem_cons, List.mem_append]
        exact Or.inr (Or.inl hx)))
    have hwfb0 : ∀ x ∈ rgIds b, (m1 x).isSome = true := fun x hx =>
      hpres1 x (hwf x (by
        simp [rgIds, hrg, List.mem_cons, List.mem_append]
        exact Or.inr (Or.inr hx)))
    refine safeFrom_andThen m1 _ _ ?_ ?_
    · by_cases hra : rgExpr a = true
      · simp only [hra, if_true]
        split
        · exact safeFrom_substrate m1
        · split
          · exact safeFrom_substrate m1
          · exact iha _ m1 hra hwfa
      · simp only [hra, if_false]
        exact safeFrom_ok m1
    · intro m2 hm2 hpres2
      have hwfb : ∀ x ∈ rgIds b, (m2 x).isSome = true := fun x hx => hpres2 x (hwfb0 x hx)
      by_cases hrb : rgExpr b = true
      · simp only [hrb, if_true]
        split
        · exact safeFrom_substrate m2
        · split
          · exact safeFrom_substrate m2
          · exact ihb _ m2 hrb hwfb
      · simp only [hrb, if_false]
        exact safeFrom_ok m2
  | neg i a iha =>
    intro g mq hrg hwf
    simp only [rgExpr] at hrg
    have hi : (mq i).isSome = true := hwf i (by simp [rgIds, hrg])
    simp only [backprop, hrg, if_true]
    refine safeFrom_andThen mq _ _ (accumulate_safeFrom mq i g hi) ?_
    intro m1 hm1 hpres1
    have hwfa : ∀ x ∈ rgIds a, (m1 x).isSome = true := fun x hx =>
      hpres1 x (hwf x (by simp [rgIds, hrg, List.mem_cons]; exact Or.inr hx))
    exact iha (negArr g) m1 hrg hwfa
  | mul i a b iha ihb =>
    intro g mq hrg hwf
    simp only [rgExpr] at hrg
    have hi : (mq i).isSome = true := hwf i (by simp [rgIds, hrg])
    simp only [backprop, hrg, if_true]
    refine safeFrom_andThen mq _ _ (accumulate_safeFrom mq i g hi) ?_
    intro m1 hm1 hpres1
    have hwfa : ∀ x ∈ rgIds a, (m1 x).isSome = true := fun x hx =>
      hpres1 x (hwf x (by
        simp [rgIds, hrg, List.mem_cons, List.mem_append]
        exact Or.inr (Or.inl hx)))
    have hwfb0 : ∀ x ∈ rgIds b, (m1 x).isSome = true := fun x hx =>
      hpres1 x (hwf x (by
        simp [rgIds, hrg, List.mem_cons, List.mem_append]
        exact Or.inr (Or.inr hx)))
    refine safeFrom_andThen m1 _ _ ?_ ?_
    · by_cases hra : rgExpr a = true
      · simp only [hra, if_true]
        split
        · split
          · exact safeFrom_substrate m1
          · split
            · exact safeFrom_substrate m1
            · exact iha _ m1 hra hwfa
        · exact safeFrom_substrate m1
      · simp only [hra, if_false]
        exact safeFrom_ok m1
    · intro m2 hm2 hpres2
      have hwfb : ∀ x ∈ rgIds b, (m2 x).isSome = true := fun x hx => hpres2 x (hwfb0 x hx)
      by_cases hrb : rgExpr b = true
      · simp only [hrb, if_true]
        split
        · split
          · exact safeFrom_substrate m2
          · split
            · exact safeFrom_substrate m2
            · exact ihb _ m2 hrb hwfb
        · exact safeFrom_substrate m2
      · simp only [hrb, if_false]
        exact safeFrom_ok m2
  | matmul i a b iha ihb =>
    intro g mq hrg hwf
    simp only [rgExpr] at hrg
    have hi : (mq i).isSome = true := hwf i (by simp [rgIds, hrg])
    simp only [backprop, hrg, if_true]
    refine safeFrom_andThen mq _ _ (accumulate_safeFrom mq i g hi) ?_
    intro m1 hm1 hpres1
    have hwfa : ∀ x ∈ rgIds a, (m1 x).isSome = true := fun x hx =>
      hpres1 x (hwf x (by
        simp [rgIds, hrg, List.mem_cons, List.mem_append]
        exact Or.inr (Or.inl hx)))
    have hwfb0 : ∀ x ∈ rgIds b, (m1 x).isSome = true := fun x hx =>
      hpres1 x (hwf x (by
        simp [rgIds, hrg, List.mem_cons, List.mem_append]
        exact Or.inr (Or.inr hx)))
    refine safeFrom_andThen m1 _ _ ?_ ?_
    · by_cases hra : rgExpr a = true
      · simp only [hra, if_true]
        split
        · exact safeFrom_substrate m1
        · split
          · exact safeFrom_substrate m1
          · split
            · exact safeFrom_substrate m1
            · exact iha _ m1 hra hwfa
      · simp only [hra, if_false]
        exact safeFrom_ok m1
    · intro m2 hm2 hpres2
      have hwfb : ∀ x ∈ rgIds b, (m2 x).isSome = true := fun x hx => hpres2 x (hwfb0 x hx)
      by_cases hrb : rgExpr b = true
      · simp only [hrb, if_true]
        split
        · exact safeFrom_substrate m2
        · split
          · exact safeFrom_substrate m2
          · split
            · exact safeFrom_substrate m2
            · exact ihb _ m2 hrb hwfb
      · simp only [hrb, if_false]
        exact safeFrom_ok m2
  | sum i a iha =>
    intro g mq hrg hwf
    simp only [rgExpr] at hrg
    have hi : (mq i).isSome = true := hwf i (by simp [rgIds, hrg])
    simp only [backprop, hrg, if_true]
    refine safeFrom_andThen mq _ _ (accumulate_safeFrom mq i g hi) ?_
    intro m1 hm1 hpres1
    have hwfa : ∀ x ∈ rgIds a, (m1 x).isSome = true := fun x hx =>
      hpres1 x (hwf x (by simp [rgIds, hrg, List.mem_cons]; exact Or.inr hx))
    split
    · exact safeFrom_substrate m1
    · split
      · exact safeFrom_substrate m1
      · exact iha _ m1 hrg hwfa
  | slice i a s t iha =>
    intro g mq hrg hwf
    simp only [rgExpr] at hrg
    have hi : (mq i).isSome = true := hwf i (by simp [rgIds, hrg])
    simp only [backprop, hrg, if_true]
    refine safeFrom_andThen mq _ _ (accumulate_safeFrom mq i g hi) ?_
    intro m1 hm1 hpres1
    exact safeFrom_attrError m1

/-- C10: on any graph built by the operation constructors from leaf tensors
whose data is never replaced after construction — so that every tensor that
requires grad still holds the gradient accumulator allocated at its
construction (`WFInit`) — the recursive backward traversal never fails the
`requires_grad` assert (each constructor attaches an edge to a source only
when that source requires grad) and never finds a gradient accumulator
absent (construction with `requires_grad` true always allocates one): the
run either succeeds or fails with an error of the array substrate or the
bare-`Dependency` iteration crash of `_slice`, never with
`NotDifferentiable` or a missing accumulator. -/
theorem c10_backward_recursion_checks_never_fail (e : Expr) (g : NDArr) (mq : GradMap)
    (hrg : rgExpr e = true) (hwf : WFInit mq e) :
    backprop e g mq ≠ Except.error BErr.notDifferentiable ∧
    backprop e g mq ≠ Except.error BErr.gradAbsent := by
  obtain ⟨h1, h2, _⟩ := backprop_safeFrom e g mq hrg hwf
  exact ⟨h1, h2⟩

/-- Witness for C10: a slice of a differentiable leaf, with the
construction-allocated accumulators present.  The guarded checks cannot
fail — the run in fact fails with the bare-`Dependency` iteration crash,
which is outside the two steps the claim covers. -/
theorem c10_backward_recursion_checks_never_fail_witness :
    rgExpr (Expr.slice 1 (Expr.leaf 0 ⟨[3], [1, 2, 3]⟩ true) 0 2) = true ∧
    WFInit (fun j => if j = 0 then some (zerosArr [3]) else if j = 1 then some (zerosArr [2]) else none)
      (Expr.slice 1 (Expr.leaf 0 ⟨[3], [1, 2, 3]⟩ true) 0 2) ∧
    (backprop (Expr.slice 1 (Expr.leaf 0 ⟨[3], [1, 2, 3]⟩ true) 0 2) ⟨[2], [1, 1]⟩
        (fun j => if j = 0 then some (zerosArr [3]) else if j = 1 then some (zerosArr [2]) else none) ≠
      Except.error BErr.notDifferentiable ∧
     backprop (Expr.slice 1 (Expr.leaf 0 ⟨[3], [1, 2, 3]⟩ true) 0 2) ⟨[2], [1, 1]⟩
        (fun j => if j = 0 then some (zerosArr [3]) else if j = 1 then some (zerosArr [2]) else none) ≠
      Except.error BErr.gradAbsent) ∧
    errOf (backprop (Expr.slice 1 (Expr.leaf 0 ⟨[3], [1, 2, 3]⟩ true) 0 2) ⟨[2], [1, 1]⟩
        (fun j => if j = 0 then some (zerosArr [3]) else if j = 1 then some (zerosArr [2]) else none)) =
      some BErr.attrError :=
  ⟨rfl, by unfold WFInit; decide,
    c10_backward_recursion_checks_never_fail
      (Expr.slice 1 (Expr.leaf 0 ⟨[3], [1, 2, 3]⟩ true) 0 2) ⟨[2], [1, 1]⟩
      (fun j => if j = 0 then some (zerosArr [3]) else if j = 1 then some (zerosArr [2]) else none) rfl
      (by unfold WFInit; decide),
    by decide⟩

end Autograd
